import Mathlib

/-!
A shallow embedding of `src/codebase_switcher2.py` (class `CodebaseSwitcher`).

The program drives a git repository through a fixed lifecycle: three managed
branches (`preedit`, `gpt`, `sonnet`), switching between them with deterministic
handling of a dirty working tree, archiving the tree to a zip, and cleanup.

Modelling conventions:
* A git repository is a list of branches, each a name paired with its commit
  history (most recent commit first).  A commit carries its message and an
  abstract content fingerprint (`tree : Nat`) standing for the committed file
  tree; `git diff --quiet b1 b2` compares the head fingerprints.
* The working tree is a single fingerprint `workTree` (the content `git add .`
  followed by `git commit` would snapshot) together with an `untracked` flag
  recording whether untracked files exist.  `git status --porcelain` reports
  something exactly when `workTree` differs from the head fingerprint of the
  current branch or untracked files exist.
* Every `run_git_command` invocation of the Python code appends the git argv to
  `trace`, so "no subprocess was invoked" is `trace` unchanged.
* Printing is not modelled; each failure return corresponds to the guard of the
  Python code at the same position.
-/

/-- Python `fnmatch.fnmatch(name, pattern)` on a POSIX system, restricted to the
metacharacters actually occurring in this program's patterns: `*` matches any
(possibly empty) character sequence — including `/`, since `fnmatch` is not
pathname-aware — and `?` matches any single character; every other character
matches itself.  First argument is the pattern (as characters), second the name. -/
def globMatch : List Char → List Char → Bool
  | [], n => n.isEmpty
  | '*' :: ps, n => n.tails.any fun t => globMatch ps t
  | '?' :: ps, n =>
    match n with
    | [] => false
    | _ :: ns => globMatch ps ns
  | p :: ps, n =>
    match n with
    | [] => false
    | c :: ns => (p == c) && globMatch ps ns

/-- `fnmatch.fnmatch(name, pattern)`. -/
def fnmatch (name pattern : String) : Bool :=
  globMatch pattern.data name.data

/-- `self.states` from `CodebaseSwitcher.__init__`. -/
def states : List String := ["preedit", "gpt", "sonnet"]

/-- `self.script_files` from `CodebaseSwitcher.__init__`. -/
def script_files : List String := ["switch.py"]

/-- `self.zip_exclude_patterns` from `CodebaseSwitcher.__init__`. -/
def zip_exclude_patterns : List String :=
  ["*.env", "*.zip", "*.DS_Store", "*.code", "__pycache__",
   "dist", "bin", ".venv", "venv", "node_modules", "target"]

/-- A relative path, as its segments (`rel_path.parts`); `str(rel_path)` joins
them with `/` (POSIX). -/
def pathStr (parts : List String) : String :=
  String.intercalate "/" parts

/-- `CodebaseSwitcher.should_exclude`: a pattern excludes the path if it matches
the full relative path or any individual segment. -/
def should_exclude (parts : List String) : Bool :=
  zip_exclude_patterns.any fun pattern =>
    fnmatch (pathStr parts) pattern || parts.any fun part => fnmatch part pattern

/-- The per-file skip test of the walk in `CodebaseSwitcher.create_zip`
(lines 338 and 345): skip when the file's name is the zip being written or is in
`script_files`, or when `should_exclude` matches the relative path.  Every other
regular file is written to the archive. -/
def skipFile (zipName : String) (parts : List String) : Bool :=
  (parts.getLastD "" == zipName || script_files.contains (parts.getLastD ""))
    || should_exclude parts

/-- A git commit: message and an abstract fingerprint of the committed tree. -/
structure Commit where
  msg : String
  tree : Nat
  deriving DecidableEq, Repr

/-- The state a `CodebaseSwitcher` invocation acts on: environment
(`gitAvailable` for `shutil.which('git')`, `repoExists` for `.git`), the
repository (branches with their histories, current branch), the working tree,
the `.cursorignore` file content (`none` = file absent), zip archives present on
disk, and the trace of git subprocess invocations (newest first). -/
structure SwitcherState where
  gitAvailable : Bool
  repoExists : Bool
  branches : List (String × List Commit)
  current : String
  workTree : Nat
  untracked : Bool
  cursorignore : Option String
  archives : List String
  trace : List (List String)
  deriving DecidableEq, Repr

/-- Branch lookup in a raw branch list (first entry with the given name). -/
def lookupB : List (String × List Commit) → String → Option (List Commit)
  | [], _ => none
  | (n, h) :: rest, b => if n == b then some h else lookupB rest b

/-- `CodebaseSwitcher.branch_exists` seen as a predicate on the repository. -/
def lookupBranch (s : SwitcherState) (b : String) : Option (List Commit) :=
  lookupB s.branches b

/-- The committed tree at the head of a branch (`none` when the branch is
absent or has no commits). -/
def headTree (s : SwitcherState) (b : String) : Option Nat :=
  (lookupBranch s b).bind fun h => h.head?.map fun c => c.tree

/-- Record one `run_git_command` subprocess invocation. -/
def tr (cmd : List String) (s : SwitcherState) : SwitcherState :=
  { s with trace := cmd :: s.trace }

/-- `git status --porcelain` prints something: tracked modifications relative to
the current head, or untracked files.  On an unborn branch every file is
untracked, so the report is nonempty. -/
def statusPorcelain (s : SwitcherState) : Bool :=
  match headTree s s.current with
  | some t => (t != s.workTree) || s.untracked
  | none => true

/-- `CodebaseSwitcher.get_current_branch`: `git branch --show-current` output,
with `"main"` as the fallback for empty output. -/
def get_current_branch (s : SwitcherState) : String :=
  if s.current == "" then "main" else s.current

/-- `git add . && git commit -m msg` on the branch `b`: prepend the commit to
`b`'s history (creating the branch when committing on an unborn branch). -/
def commitOn (b : String) (msg : String) (t : Nat) :
    List (String × List Commit) → List (String × List Commit)
  | [] => [(b, [⟨msg, t⟩])]
  | (n, h) :: rest =>
    if n == b then (n, ⟨msg, t⟩ :: h) :: rest else (n, h) :: commitOn b msg t rest

/-- Effect of `git add . && git commit -m msg`: the working tree snapshot
becomes the head commit of the current branch; untracked files were staged, so
none remain. -/
def doCommit (msg : String) (s : SwitcherState) : SwitcherState :=
  { s with branches := commitOn s.current msg s.workTree s.branches, untracked := false }

/-- `run_git_command(['add','.'])` followed by `run_git_command(['commit','-m',msg])`. -/
def addCommit (msg : String) (s : SwitcherState) : SwitcherState :=
  doCommit msg (tr ["commit", "-m", msg] (tr ["add", "."] s))

/-- `git checkout b` (with a clean tree, as the program ensures): the working
tree takes the content of `b`'s head. -/
def doCheckout (b : String) (s : SwitcherState) : SwitcherState :=
  { s with current := b, workTree := (headTree s b).getD s.workTree }

/-- `git checkout -b b`: create `b` at the current position and move to it. -/
def doCheckoutNew (b : String) (s : SwitcherState) : SwitcherState :=
  { s with branches := (b, (lookupBranch s s.current).getD []) :: s.branches, current := b }

/-- `git reset --hard`: tracked files revert to the current head.  (The
program always follows this with `git clean -fd`, which the model tracks via
`untracked`.) -/
def doResetHard (s : SwitcherState) : SwitcherState :=
  { s with workTree := (headTree s s.current).getD s.workTree }

/-- `git clean -fd`: untracked files are removed. -/
def doClean (s : SwitcherState) : SwitcherState :=
  { s with untracked := false }

/-- `git branch -D b`. -/
def doDeleteBranch (b : String) (s : SwitcherState) : SwitcherState :=
  { s with branches := s.branches.filter fun p => !(p.1 == b) }

/-- `CodebaseSwitcher.switch_state` (lines 166-216).  The guards appear in
source order: unrecognized variant name, git availability, repository
existence, target-branch existence, already-on-target; then the dirty-tree
handling (discard for `preedit` to `gpt`, auto-commit plus clean otherwise) and
the final checkout. -/
def switch_state (state : String) (s : SwitcherState) : Bool × SwitcherState :=
  if !(state == "gpt" || state == "sonnet") then (false, s)
  else if !s.gitAvailable then (false, s)
  else if !s.repoExists then (false, s)
  else
    let s1 := tr ["branch", "--list", state] s
    if !(lookupBranch s1 state).isSome then (false, s1)
    else
      let s2 := tr ["branch", "--show-current"] s1
      let current := get_current_branch s2
      if current == state then (true, s2)
      else
        let s3 := tr ["status", "--porcelain"] s2
        let s4 :=
          if statusPorcelain s3 then
            if current == "preedit" && state == "gpt" then
              doClean (tr ["clean", "-fd"] (doResetHard (tr ["reset", "--hard"] s3)))
            else
              doClean (tr ["clean", "-fd"]
                (addCommit ("Auto-commit from " ++ current ++ " before switching to " ++ state) s3))
          else s3
        (true, doCheckout state (tr ["checkout", state] s4))

/-- Python `str.strip()` whitespace test (ASCII whitespace). -/
def isPyWs (c : Char) : Bool :=
  c == ' ' || c == '\t' || c == '\n' || c == '\r' || c == '\x0b' || c == '\x0c'

/-- Left strip (`str.lstrip()`), on characters. -/
def lstripC (l : List Char) : List Char :=
  l.dropWhile isPyWs

/-- Right strip (`str.rstrip()`), on characters. -/
def rstripC (l : List Char) : List Char :=
  (l.reverse.dropWhile isPyWs).reverse

/-- `str.strip()`. -/
def pyStrip (s : String) : String :=
  ⟨lstripC (rstripC s.data)⟩

/-- `str.rstrip()`. -/
def pyRstrip (s : String) : String :=
  ⟨rstripC s.data⟩

/-- `str.lower()` (ASCII). -/
def pyLower (s : String) : String :=
  ⟨s.data.map Char.toLower⟩

/-- `str.split('\n')`, on characters. -/
def splitNl : List Char → List (List Char)
  | [] => [[]]
  | c :: rest =>
    if c = '\n' then [] :: splitNl rest
    else
      match splitNl rest with
      | [] => [[c]]
      | l :: ls => (c :: l) :: ls

/-- The `.cursorignore` entry for the switcher script (`switcher_entry` in
`initialize`, line 93). -/
def switcher_entry : String := "codebase_switcher2.py"

/-- The comment line written above the entry (lines 100 and 108). -/
def cursorComment : String :=
  "# Ignore codebase switcher script to avoid contaminating AI conversations"

/-- The `.cursorignore` update of `initialize` (lines 91-112), as a pure
function of the prior file content.  If the file exists and its stripped lines
already contain the entry, it is left alone; if the entry is absent, the
comment and entry are appended after the right-stripped prior content; if the
file is absent, it is created with the comment and entry. -/
def cursorUpdate : Option String → Option String
  | some existing_content =>
    let existing_lines := splitNl (pyStrip existing_content).data
    if switcher_entry.data ∈ existing_lines then some existing_content
    else some (pyRstrip existing_content
      ++ ("\n\n" ++ cursorComment ++ "\n" ++ switcher_entry ++ "\n"))
  | none => some (cursorComment ++ "\n" ++ switcher_entry ++ "\n")

/-- Apply the `.cursorignore` update to the state. -/
def writeCursorignore (s : SwitcherState) : SwitcherState :=
  { s with cursorignore := cursorUpdate s.cursorignore }

/-- `initialize`, phase 1 (lines 68-77): create the repository and set local
identity when `.git` is absent. -/
def initRepo (s : SwitcherState) : SwitcherState :=
  if !s.repoExists then
    tr ["config", "--local", "user.email", "switcher@codebase.local"]
      (tr ["config", "--local", "user.name", "Codebase Switcher"]
        (tr ["init"] { s with repoExists := true }))
  else s

/-- `initialize`, phase 2 (lines 79-121): when `git log --oneline -1` fails
(the current branch has no commits), write the README marker and the
`.cursorignore` entry, then create the initial commit.  The README write is
absorbed into the working-tree fingerprint. -/
def initCommit (s : SwitcherState) : SwitcherState :=
  let s := tr ["log", "--oneline", "-1"] s
  if ((lookupBranch s s.current).getD []).isEmpty then
    addCommit "Initial commit" (writeCursorignore s)
  else s

/-- `initialize`, phase 3 (lines 123-132): auto-commit a dirty tree. -/
def initAutoCommit (s : SwitcherState) : SwitcherState :=
  let s := tr ["status", "--porcelain"] s
  if statusPorcelain s then
    addCommit ("Auto-commit on " ++ get_current_branch s ++ " during init")
      (tr ["branch", "--show-current"] s)
  else s

/-- `initialize`, phase 4 (lines 134-145): ensure `preedit` exists and is
checked out.  (On the creation path, line 141 runs `git commit` without
staging; the tree is clean at that point in every execution of the model, so
the guard never fires.) -/
def initPreedit (s : SwitcherState) : SwitcherState :=
  let s := tr ["branch", "--list", "preedit"] s
  if (lookupBranch s "preedit").isSome then
    doCheckout "preedit" (tr ["checkout", "preedit"] s)
  else
    let s := doCheckoutNew "preedit" (tr ["checkout", "-b", "preedit"] s)
    let s := tr ["status", "--porcelain"] s
    if statusPorcelain s then
      doCommit "Initialize preedit state" (tr ["commit", "-m", "Initialize preedit state"] s)
    else s

/-- `initialize`, per-variant step of phase 5 (lines 147-156): create the
branch from `preedit` when absent, returning to `preedit` afterwards. -/
def initVariant (v : String) (s : SwitcherState) : SwitcherState :=
  let s := tr ["branch", "--list", v] s
  if (lookupBranch s v).isSome then s
  else doCheckout "preedit" (tr ["checkout", "preedit"]
    (doCheckoutNew v (tr ["checkout", "-b", v] s)))

/-- `initialize`, final checkout (lines 158-160). -/
def initFinal (s : SwitcherState) : SwitcherState :=
  doCheckout "preedit" (tr ["checkout", "preedit"] s)

/-- `CodebaseSwitcher.initialize` (lines 63-164), as the composition of its
phases after the git-availability gate. -/
def initStates (s : SwitcherState) : Bool × SwitcherState :=
  if !s.gitAvailable then (false, s)
  else (true, initFinal (initVariant "sonnet" (initVariant "gpt"
    (initPreedit (initAutoCommit (initCommit (initRepo s)))))))

/-- `git diff --quiet b1 b2` exits 0 (the two committed trees are
byte-identical).  A missing branch or unborn branch makes the diff fail, hence
not identical. -/
def branchesEqual (s : SwitcherState) (b1 b2 : String) : Bool :=
  match headTree s b1, headTree s b2 with
  | some t1, some t2 => t1 == t2
  | _, _ => false

/-- `CodebaseSwitcher.verify_branches_different` (lines 264-297): all three
managed branches must exist, and the three pairwise diffs must all be
non-empty. -/
def verify_branches_different (s : SwitcherState) : Bool × SwitcherState :=
  let s := tr ["branch", "--list", "preedit"] s
  if !(lookupBranch s "preedit").isSome then (false, s)
  else
    let s := tr ["branch", "--list", "gpt"] s
    if !(lookupBranch s "gpt").isSome then (false, s)
    else
      let s := tr ["branch", "--list", "sonnet"] s
      if !(lookupBranch s "sonnet").isSome then (false, s)
      else
        let s := tr ["diff", "--quiet", "gpt", "sonnet"]
          (tr ["diff", "--quiet", "preedit", "sonnet"]
            (tr ["diff", "--quiet", "preedit", "gpt"] s))
        if branchesEqual s "preedit" "gpt" || branchesEqual s "preedit" "sonnet"
            || branchesEqual s "gpt" "sonnet" then (false, s)
        else (true, s)

/-- `CodebaseSwitcher.cleanup_switcher_branches`, landing phase (lines
240-253): find a safe branch (`main`, then `master`); create `main` at the
current position when neither exists; otherwise check the safe branch out only
when currently on a managed branch. -/
def cleanupLand (s : SwitcherState) : SwitcherState :=
  let s := tr ["branch", "--show-current"] s
  let current := get_current_branch s
  let s := tr ["branch", "--list", "main"] s
  if (lookupBranch s "main").isSome then
    if states.contains current then doCheckout "main" (tr ["checkout", "main"] s) else s
  else
    let s := tr ["branch", "--list", "master"] s
    if (lookupBranch s "master").isSome then
      if states.contains current then doCheckout "master" (tr ["checkout", "master"] s) else s
    else doCheckoutNew "main" (tr ["checkout", "-b", "main"] s)

/-- One iteration of the deletion loop of `cleanup_switcher_branches`
(lines 256-259): force-delete the branch when it exists. -/
def delStep (s : SwitcherState) (st : String) : SwitcherState :=
  let s := tr ["branch", "--list", st] s
  if (lookupBranch s st).isSome then doDeleteBranch st (tr ["branch", "-D", st] s) else s

/-- `cleanup_switcher_branches`, deletion loop (lines 256-259), over
`self.states` in order.  Only branch references change. -/
def deleteStates (s : SwitcherState) : SwitcherState :=
  delStep (delStep (delStep s "preedit") "gpt") "sonnet"

/-- `CodebaseSwitcher.cleanup_switcher_branches` (lines 236-262). -/
def cleanup_switcher_branches (s : SwitcherState) : Bool × SwitcherState :=
  (true, deleteStates (cleanupLand s))

/-- `CodebaseSwitcher.create_zip` (lines 299-371).  The zip file name
(working-directory name plus timestamp) is a parameter; writing the archive
adds it to `archives` (the per-file walk selection is `skipFile`).  On success
the cleanup runs and the result is `true` regardless of the cleanup outcome. -/
def create_zip (zipName : String) (s : SwitcherState) : Bool × SwitcherState :=
  if !s.gitAvailable then (false, s)
  else if !s.repoExists then (false, s)
  else
    let s := tr ["status", "--porcelain"] s
    let s :=
      if statusPorcelain s then
        addCommit ("Auto-commit on " ++ get_current_branch s ++ " before zip creation")
          (tr ["branch", "--show-current"] s)
      else s
    match verify_branches_different s with
    | (false, s) => (false, s)
    | (true, s) =>
      let s := { s with archives := zipName :: s.archives }
      (true, (cleanup_switcher_branches s).2)

/-- `CodebaseSwitcher.reset_to_initial_state` (lines 373-393): the
confirmation response is consulted first; anything whose stripped, lowercased
form is not `"y"` aborts before any other action.  On confirmation: git
availability and repository checks, `git clean -fd`, then cleanup. -/
def reset_to_initial_state (confirm : String) (s : SwitcherState) : Bool × SwitcherState :=
  if !(pyLower (pyStrip confirm) == "y") then (false, s)
  else if !s.gitAvailable then (false, s)
  else if !s.repoExists then (false, s)
  else cleanup_switcher_branches (doClean (tr ["clean", "-fd"] s))

/-! ## Field lemmas for the primitive operations -/

@[simp] theorem tr_gitAvailable (c : List String) (s : SwitcherState) :
    (tr c s).gitAvailable = s.gitAvailable := rfl

@[simp] theorem tr_repoExists (c : List String) (s : SwitcherState) :
    (tr c s).repoExists = s.repoExists := rfl

@[simp] theorem tr_branches (c : List String) (s : SwitcherState) :
    (tr c s).branches = s.branches := rfl

@[simp] theorem tr_current (c : List String) (s : SwitcherState) :
    (tr c s).current = s.current := rfl

@[simp] theorem tr_workTree (c : List String) (s : SwitcherState) :
    (tr c s).workTree = s.workTree := rfl

@[simp] theorem tr_untracked (c : List String) (s : SwitcherState) :
    (tr c s).untracked = s.untracked := rfl

@[simp] theorem tr_cursorignore (c : List String) (s : SwitcherState) :
    (tr c s).cursorignore = s.cursorignore := rfl

@[simp] theorem tr_archives (c : List String) (s : SwitcherState) :
    (tr c s).archives = s.archives := rfl

@[simp] theorem lookupBranch_tr (c : List String) (s : SwitcherState) (b : String) :
    lookupBranch (tr c s) b = lookupBranch s b := rfl

@[simp] theorem headTree_tr (c : List String) (s : SwitcherState) (b : String) :
    headTree (tr c s) b = headTree s b := rfl

@[simp] theorem statusPorcelain_tr (c : List String) (s : SwitcherState) :
    statusPorcelain (tr c s) = statusPorcelain s := rfl

@[simp] theorem get_current_branch_tr (c : List String) (s : SwitcherState) :
    get_current_branch (tr c s) = get_current_branch s := rfl

@[simp] theorem doClean_gitAvailable (s : SwitcherState) :
    (doClean s).gitAvailable = s.gitAvailable := rfl

@[simp] theorem doClean_repoExists (s : SwitcherState) :
    (doClean s).repoExists = s.repoExists := rfl

@[simp] theorem doClean_branches (s : SwitcherState) :
    (doClean s).branches = s.branches := rfl

@[simp] theorem doClean_current (s : SwitcherState) :
    (doClean s).current = s.current := rfl

@[simp] theorem doClean_workTree (s : SwitcherState) :
    (doClean s).workTree = s.workTree := rfl

@[simp] theorem doClean_untracked (s : SwitcherState) :
    (doClean s).untracked = false := rfl

@[simp] theorem doClean_cursorignore (s : SwitcherState) :
    (doClean s).cursorignore = s.cursorignore := rfl

@[simp] theorem doClean_archives (s : SwitcherState) :
    (doClean s).archives = s.archives := rfl

@[simp] theorem doResetHard_gitAvailable (s : SwitcherState) :
    (doResetHard s).gitAvailable = s.gitAvailable := rfl

@[simp] theorem doResetHard_repoExists (s : SwitcherState) :
    (doResetHard s).repoExists = s.repoExists := rfl

@[simp] theorem doResetHard_branches (s : SwitcherState) :
    (doResetHard s).branches = s.branches := rfl

@[simp] theorem doResetHard_current (s : SwitcherState) :
    (doResetHard s).current = s.current := rfl

@[simp] theorem doResetHard_untracked (s : SwitcherState) :
    (doResetHard s).untracked = s.untracked := rfl

@[simp] theorem doResetHard_cursorignore (s : SwitcherState) :
    (doResetHard s).cursorignore = s.cursorignore := rfl

@[simp] theorem doResetHard_archives (s : SwitcherState) :
    (doResetHard s).archives = s.archives := rfl

theorem doResetHard_workTree (s : SwitcherState) :
    (doResetHard s).workTree = (headTree s s.current).getD s.workTree := rfl

@[simp] theorem doCommit_gitAvailable (m : String) (s : SwitcherState) :
    (doCommit m s).gitAvailable = s.gitAvailable := rfl

@[simp] theorem doCommit_repoExists (m : String) (s : SwitcherState) :
    (doCommit m s).repoExists = s.repoExists := rfl

@[simp] theorem doCommit_current (m : String) (s : SwitcherState) :
    (doCommit m s).current = s.current := rfl

@[simp] theorem doCommit_workTree (m : String) (s : SwitcherState) :
    (doCommit m s).workTree = s.workTree := rfl

@[simp] theorem doCommit_untracked (m : String) (s : SwitcherState) :
    (doCommit m s).untracked = false := rfl

@[simp] theorem doCommit_cursorignore (m : String) (s : SwitcherState) :
    (doCommit m s).cursorignore = s.cursorignore := rfl

@[simp] theorem doCommit_archives (m : String) (s : SwitcherState) :
    (doCommit m s).archives = s.archives := rfl

theorem doCommit_branches (m : String) (s : SwitcherState) :
    (doCommit m s).branches = commitOn s.current m s.workTree s.branches := rfl

@[simp] theorem doCheckout_gitAvailable (b : String) (s : SwitcherState) :
    (doCheckout b s).gitAvailable = s.gitAvailable := rfl

@[simp] theorem doCheckout_repoExists (b : String) (s : SwitcherState) :
    (doCheckout b s).repoExists = s.repoExists := rfl

@[simp] theorem doCheckout_branches (b : String) (s : SwitcherState) :
    (doCheckout b s).branches = s.branches := rfl

@[simp] theorem doCheckout_current (b : String) (s : SwitcherState) :
    (doCheckout b s).current = b := rfl

@[simp] theorem doCheckout_untracked (b : String) (s : SwitcherState) :
    (doCheckout b s).untracked = s.untracked := rfl

@[simp] theorem doCheckout_cursorignore (b : String) (s : SwitcherState) :
    (doCheckout b s).cursorignore = s.cursorignore := rfl

@[simp] theorem doCheckout_archives (b : String) (s : SwitcherState) :
    (doCheckout b s).archives = s.archives := rfl

theorem doCheckout_workTree (b : String) (s : SwitcherState) :
    (doCheckout b s).workTree = (headTree s b).getD s.workTree := rfl

@[simp] theorem doCheckoutNew_gitAvailable (b : String) (s : SwitcherState) :
    (doCheckoutNew b s).gitAvailable = s.gitAvailable := rfl

@[simp] theorem doCheckoutNew_repoExists (b : String) (s : SwitcherState) :
    (doCheckoutNew b s).repoExists = s.repoExists := rfl

@[simp] theorem doCheckoutNew_current (b : String) (s : SwitcherState) :
    (doCheckoutNew b s).current = b := rfl

@[simp] theorem doCheckoutNew_workTree (b : String) (s : SwitcherState) :
    (doCheckoutNew b s).workTree = s.workTree := rfl

@[simp] theorem doCheckoutNew_untracked (b : String) (s : SwitcherState) :
    (doCheckoutNew b s).untracked = s.untracked := rfl

@[simp] theorem doCheckoutNew_cursorignore (b : String) (s : SwitcherState) :
    (doCheckoutNew b s).cursorignore = s.cursorignore := rfl

@[simp] theorem doCheckoutNew_archives (b : String) (s : SwitcherState) :
    (doCheckoutNew b s).archives = s.archives := rfl

theorem doCheckoutNew_branches (b : String) (s : SwitcherState) :
    (doCheckoutNew b s).branches
      = (b, (lookupBranch s s.current).getD []) :: s.branches := rfl

@[simp] theorem writeCursorignore_gitAvailable (s : SwitcherState) :
    (writeCursorignore s).gitAvailable = s.gitAvailable := rfl

@[simp] theorem writeCursorignore_repoExists (s : SwitcherState) :
    (writeCursorignore s).repoExists = s.repoExists := rfl

@[simp] theorem writeCursorignore_branches (s : SwitcherState) :
    (writeCursorignore s).branches = s.branches := rfl

@[simp] theorem writeCursorignore_current (s : SwitcherState) :
    (writeCursorignore s).current = s.current := rfl

@[simp] theorem writeCursorignore_workTree (s : SwitcherState) :
    (writeCursorignore s).workTree = s.workTree := rfl

@[simp] theorem writeCursorignore_untracked (s : SwitcherState) :
    (writeCursorignore s).untracked = s.untracked := rfl

@[simp] theorem writeCursorignore_archives (s : SwitcherState) :
    (writeCursorignore s).archives = s.archives := rfl

theorem writeCursorignore_cursorignore (s : SwitcherState) :
    (writeCursorignore s).cursorignore = cursorUpdate s.cursorignore := rfl

/-! ## Lemmas about branch lookup and committing -/

theorem lookupB_commitOn_self (b msg : String) (t : Nat)
    (l : List (String × List Commit)) :
    lookupB (commitOn b msg t l) b = some (⟨msg, t⟩ :: (lookupB l b).getD []) := by
  induction l with
  | nil => simp [commitOn, lookupB]
  | cons p rest ih =>
    obtain ⟨n, h⟩ := p
    by_cases hn : n = b
    · subst hn; simp [commitOn, lookupB]
    · simp [commitOn, lookupB, hn, ih]

theorem lookupB_commitOn_ne (b b' msg : String) (t : Nat)
    (l : List (String × List Commit)) (h : b' ≠ b) :
    lookupB (commitOn b msg t l) b' = lookupB l b' := by
  induction l with
  | nil => simp [commitOn, lookupB, Ne.symm h]
  | cons p rest ih =>
    obtain ⟨n, hh⟩ := p
    by_cases hn : n = b
    · subst hn
      simp [commitOn, lookupB, Ne.symm h]
    · simp [commitOn, lookupB, hn, ih]

/-! ## Example states used by witnesses -/

/-- A healthy initialized repository: three distinct managed branches plus
`main`, clean tree, currently on `preedit`. -/
def exState : SwitcherState := {
  gitAvailable := true, repoExists := true,
  branches := [("preedit", [⟨"c", 0⟩]), ("gpt", [⟨"c", 1⟩]), ("sonnet", [⟨"c", 2⟩]),
    ("main", [⟨"c", 0⟩])],
  current := "preedit", workTree := 0, untracked := false,
  cursorignore := none, archives := [], trace := [] }

/-! ## Claim theorems -/

/-- **C4.** For every input to the switch operation that is not one of the two
edit-variant names (`gpt`, `sonnet`), the operation fails (the `InvalidState`
guard, line 168, is the one that fires) and the whole state — current branch,
working tree, repository, and even the subprocess trace — is returned
unchanged. -/
theorem switch_invalid_rejected (s : SwitcherState) (name : String)
    (h : name ≠ "gpt") (h' : name ≠ "sonnet") :
    switch_state name s = (false, s) := by
  simp [switch_state, h, h']

/-- Witness for C4: switching to `"foo"` on a healthy repository fails and
leaves the state untouched. -/
theorem switch_invalid_rejected_witness :
    switch_state "foo" exState = (false, exState) :=
  switch_invalid_rejected exState "foo" (by decide) (by decide)

/-- **C10.** The `InvalidState` rejection takes precedence over every
environment precondition: with an unrecognized variant name the switch fails
and invokes no git subprocess (the trace is unchanged) even when git is not on
the path and no repository exists. -/
theorem switch_invalid_precedence (s : SwitcherState) (name : String)
    (h : name ≠ "gpt") (h' : name ≠ "sonnet")
    (_hg : s.gitAvailable = false) (_hr : s.repoExists = false) :
    (switch_state name s).1 = false ∧ (switch_state name s).2.trace = s.trace := by
  simp [switch_state, h, h']

/-- Witness for C10: a broken environment (no git, no repository) still gets
the invalid-name rejection with an empty subprocess trace. -/
theorem switch_invalid_precedence_witness :
    (switch_state "preedit" { exState with gitAvailable := false, repoExists := false }).1
        = false
      ∧ (switch_state "preedit"
          { exState with gitAvailable := false, repoExists := false }).2.trace
        = ({ exState with gitAvailable := false, repoExists := false } : SwitcherState).trace :=
  switch_invalid_precedence _ "preedit" (by decide) (by decide) rfl rfl

/-- **C9.** Reset consults the confirmation response before anything else; for
every response whose stripped, lowercased form is not the explicit affirmative
`"y"`, the operation aborts and performs no side effects at all: the state —
including the untracked files, the branches, and the subprocess trace — is
returned unchanged. -/
theorem reset_declined_no_side_effects (s : SwitcherState) (confirm : String)
    (h : pyLower (pyStrip confirm) ≠ "y") :
    reset_to_initial_state confirm s = (false, s) := by
  simp [reset_to_initial_state, h]

/-- Witness for C9: answering `"N"` aborts the reset with the state
untouched. -/
theorem reset_declined_no_side_effects_witness :
    reset_to_initial_state "N" exState = (false, exState) :=
  reset_declined_no_side_effects exState "N" (by decide)

/-- **C8.** The exclusion predicate excludes `build/output.zip` (and the
underlying `fnmatch` makes the separator-free pattern `*.zip` match the full
relative path `build/output.zip`), and excludes every path containing a
segment literally named `target`, at any depth. -/
theorem exclusion_pattern_matching :
    should_exclude ["build", "output.zip"] = true
      ∧ fnmatch "build/output.zip" "*.zip" = true
      ∧ ∀ parts : List String, "target" ∈ parts → should_exclude parts = true := by
  refine ⟨by decide, by decide, ?_⟩
  intro parts h
  apply List.any_eq_true.mpr
  refine ⟨"target", by decide, ?_⟩
  simp only [Bool.or_eq_true, List.any_eq_true]
  exact Or.inr ⟨"target", h, by decide⟩

/-- Witness for C8: a `target` segment two levels deep is excluded. -/
theorem exclusion_pattern_matching_witness :
    should_exclude ["build", "output.zip"] = true
      ∧ fnmatch "build/output.zip" "*.zip" = true
      ∧ should_exclude ["a", "target", "b.txt"] = true :=
  ⟨exclusion_pattern_matching.1, exclusion_pattern_matching.2.1,
    exclusion_pattern_matching.2.2 ["a", "target", "b.txt"] (by decide)⟩

/-- **C5** (evaluation at the failing input).  The walk of `create_zip` does
not skip the switcher's own script file `codebase_switcher2.py` — the skip
list `script_files` holds the stale name `switch.py`, which the walk skips
instead — while the code's own `.cursorignore` logic (line 93) identifies the
switcher script as `codebase_switcher2.py`. -/
theorem zip_walk_script_file_eval :
    skipFile "codebase_myproj_20250101_120000.zip" ["codebase_switcher2.py"] = false
      ∧ skipFile "codebase_myproj_20250101_120000.zip" ["switch.py"] = true
      ∧ switcher_entry = "codebase_switcher2.py"
      ∧ script_files = ["switch.py"] := by
  refine ⟨by decide, by decide, rfl, rfl⟩

@[simp] theorem headTree_doClean (s : SwitcherState) (b : String) :
    headTree (doClean s) b = headTree s b := rfl

@[simp] theorem headTree_doResetHard (s : SwitcherState) (b : String) :
    headTree (doResetHard s) b = headTree s b := rfl

/-- **C1.** For every switch with a dirty working tree and a current branch
other than the target (with the operation's preconditions met: a recognized
target with an existing, non-empty branch, git on the path, a repository, and
a named current branch): from `preedit` to `gpt` the modifications are
discarded — no commit is created anywhere (`branches` unchanged) and the
checkout lands on `gpt`'s head with no untracked files left; every other dirty
transition first commits the modifications with the generated message
`Auto-commit from <current> before switching to <target>` on the departing
branch (whose new head carries exactly the working-tree content), then removes
untracked files, then checks out the target. -/
theorem switch_dirty_transitions (s : SwitcherState) (v : String) (t : Nat)
    (hv : v = "gpt" ∨ v = "sonnet")
    (hg : s.gitAvailable = true) (hr : s.repoExists = true)
    (hcur : s.current ≠ "") (hne : s.current ≠ v)
    (hd : statusPorcelain s = true)
    (ht : headTree s v = some t) :
    ((s.current = "preedit" ∧ v = "gpt") →
      (switch_state v s).1 = true
        ∧ (switch_state v s).2.branches = s.branches
        ∧ (switch_state v s).2.current = v
        ∧ (switch_state v s).2.workTree = t
        ∧ (switch_state v s).2.untracked = false)
    ∧ (¬(s.current = "preedit" ∧ v = "gpt") →
      (switch_state v s).1 = true
        ∧ (switch_state v s).2.branches
            = commitOn s.current
                ("Auto-commit from " ++ s.current ++ " before switching to " ++ v)
                s.workTree s.branches
        ∧ headTree (switch_state v s).2 s.current = some s.workTree
        ∧ (switch_state v s).2.current = v
        ∧ (switch_state v s).2.workTree = t
        ∧ (switch_state v s).2.untracked = false) := by
  have hb : (lookupBranch s v).isSome := by
    unfold headTree at ht
    cases hl : lookupBranch s v <;> simp [hl] at ht ⊢
  have hvb : (v == "gpt" || v == "sonnet") = true := by
    rcases hv with h | h <;> simp [h]
  have hc0 : (s.current == "") = false := by simp [hcur]
  have hcv : (s.current == v) = false := by simp [hne]
  have hgc : get_current_branch s = s.current := by simp [get_current_branch, hc0]
  constructor
  · rintro ⟨hpre, hgpt⟩
    subst hgpt
    have hcond : (s.current == "preedit" && "gpt" == "gpt") = true := by simp [hpre]
    have key : switch_state "gpt" s
        = (true, doCheckout "gpt" (tr ["checkout", "gpt"]
            (doClean (tr ["clean", "-fd"] (doResetHard (tr ["reset", "--hard"]
              (tr ["status", "--porcelain"] (tr ["branch", "--show-current"]
                (tr ["branch", "--list", "gpt"] s))))))))) := by
      simp only [switch_state, hvb, Bool.not_true, Bool.false_eq_true, if_false,
        hg, hr, lookupBranch_tr, hb, Bool.not_false, if_true,
        get_current_branch_tr, hgc, hcv, statusPorcelain_tr, hd, hcond]
    rw [key]
    refine ⟨rfl, by simp, rfl, ?_, rfl⟩
    simp [doCheckout_workTree, ht]
  · intro hnot
    have hcond : (s.current == "preedit" && v == "gpt") = false := by
      rcases not_and_or.mp hnot with h | h <;> simp [h]
    have key : switch_state v s
        = (true, doCheckout v (tr ["checkout", v]
            (doClean (tr ["clean", "-fd"]
              (addCommit ("Auto-commit from " ++ s.current ++ " before switching to " ++ v)
                (tr ["status", "--porcelain"] (tr ["branch", "--show-current"]
                  (tr ["branch", "--list", v] s)))))))) := by
      simp only [switch_state, hvb, Bool.not_true, Bool.false_eq_true, if_false,
        hg, hr, lookupBranch_tr, hb, Bool.not_false, if_true,
        get_current_branch_tr, hgc, hcv, statusPorcelain_tr, hd, hcond,
        Bool.false_eq_true]
    rw [key]
    have hbr : (doCheckout v (tr ["checkout", v]
            (doClean (tr ["clean", "-fd"]
              (addCommit ("Auto-commit from " ++ s.current ++ " before switching to " ++ v)
                (tr ["status", "--porcelain"] (tr ["branch", "--show-current"]
                  (tr ["branch", "--list", v] s)))))))).branches
        = commitOn s.current
            ("Auto-commit from " ++ s.current ++ " before switching to " ++ v)
            s.workTree s.branches := by
      simp [addCommit, doCommit_branches]
    refine ⟨rfl, hbr, ?_, rfl, ?_, rfl⟩
    · show headTree _ s.current = some s.workTree
      unfold headTree lookupBranch
      rw [hbr, lookupB_commitOn_self]
      rfl
    · rw [doCheckout_workTree]
      have : headTree (tr ["checkout", v]
            (doClean (tr ["clean", "-fd"]
              (addCommit ("Auto-commit from " ++ s.current ++ " before switching to " ++ v)
                (tr ["status", "--porcelain"] (tr ["branch", "--show-current"]
                  (tr ["branch", "--list", v] s))))))) v = some t := by
        unfold headTree lookupBranch
        simp only [tr_branches, doClean_branches, addCommit, doCommit_branches,
          tr_current, tr_workTree]
        rw [lookupB_commitOn_ne _ _ _ _ _ (Ne.symm hne)]
        exact ht
      rw [this]; rfl

/-- Witness for C1: on a healthy repository with a dirty tree on `preedit`,
switching to `sonnet` succeeds, lands on `sonnet`, and the departing `preedit`
branch's new head commit carries the dirty content. -/
theorem switch_dirty_transitions_witness :
    (switch_state "sonnet" { exState with workTree := 7 }).1 = true
      ∧ (switch_state "sonnet" { exState with workTree := 7 }).2.current = "sonnet"
      ∧ headTree (switch_state "sonnet" { exState with workTree := 7 }).2 "preedit"
        = some 7 := by
  have h := (switch_dirty_transitions { exState with workTree := 7 } "sonnet" 2
    (Or.inr rfl) rfl rfl (by decide) (by decide) (by decide) (by decide)).2 (by decide)
  exact ⟨h.1, h.2.2.2.1, h.2.2.1⟩

@[simp] theorem branchesEqual_tr (c : List String) (s : SwitcherState) (b1 b2 : String) :
    branchesEqual (tr c s) b1 b2 = branchesEqual s b1 b2 := rfl

theorem verify_archives (s : SwitcherState) :
    (verify_branches_different s).2.archives = s.archives := by
  unfold verify_branches_different
  dsimp only
  split_ifs <;> simp only [tr_archives]

theorem verify_false_of_identical (s : SwitcherState)
    (hid : branchesEqual s "preedit" "gpt" = true ∨ branchesEqual s "preedit" "sonnet" = true
      ∨ branchesEqual s "gpt" "sonnet" = true) :
    (verify_branches_different s).1 = false := by
  unfold verify_branches_different
  dsimp only
  split_ifs with h1 h2 h3 h4
  · dsimp only
  · dsimp only
  · dsimp only
  · dsimp only
  · exfalso
    simp only [branchesEqual_tr] at h4
    apply h4
    rcases hid with h | h | h <;> simp [h]

/-- A repository where `preedit` and `gpt` have byte-identical committed
content but the working tree on `gpt` is dirty. -/
def zipDegenerateEx : SwitcherState := {
  gitAvailable := true, repoExists := true,
  branches := [("preedit", [⟨"c", 0⟩]), ("gpt", [⟨"c", 0⟩]), ("sonnet", [⟨"c", 1⟩])],
  current := "gpt", workTree := 2, untracked := false,
  cursorignore := none, archives := [], trace := [] }

/-- **C2, counterexample.**  The claim as stated is false: in `zipDegenerateEx`
the pair `preedit`/`gpt` is byte-identical when the archive operation starts,
yet the operation succeeds and creates an archive — `create_zip` auto-commits
the dirty tree on `gpt` first, which differentiates the pair before the
verification step runs. -/
theorem zip_degenerate_counterexample :
    branchesEqual zipDegenerateEx "preedit" "gpt" = true
      ∧ (create_zip "z.zip" zipDegenerateEx).1 = true
      ∧ (create_zip "z.zip" zipDegenerateEx).2.archives = ["z.zip"] := by
  decide

/-- **C2, amended.**  For every archive operation in an initialized repository
whose working tree is clean (so the initial auto-commit does not change any
branch) and where at least one pair among `preedit`/`gpt`, `preedit`/`sonnet`,
`gpt`/`sonnet` is byte-identical, the operation fails (the
`DegenerateBranches` check is what rejects it) and no archive file is created
on disk. -/
theorem zip_degenerate_blocks (s : SwitcherState) (zn : String)
    (hg : s.gitAvailable = true) (hr : s.repoExists = true)
    (hd : statusPorcelain s = false)
    (hid : branchesEqual s "preedit" "gpt" = true ∨ branchesEqual s "preedit" "sonnet" = true
      ∨ branchesEqual s "gpt" "sonnet" = true) :
    (create_zip zn s).1 = false ∧ (create_zip zn s).2.archives = s.archives := by
  have hid' : branchesEqual (tr ["status", "--porcelain"] s) "preedit" "gpt" = true
      ∨ branchesEqual (tr ["status", "--porcelain"] s) "preedit" "sonnet" = true
      ∨ branchesEqual (tr ["status", "--porcelain"] s) "gpt" "sonnet" = true := by
    simpa using hid
  have h1 := verify_false_of_identical _ hid'
  have h2 := verify_archives (tr ["status", "--porcelain"] s)
  unfold create_zip
  simp only [hg, hr, Bool.not_true, Bool.false_eq_true, if_false,
    statusPorcelain_tr, hd]
  cases hres : verify_branches_different (tr ["status", "--porcelain"] s) with
  | mk b s' =>
    rw [hres] at h1 h2
    simp only at h1
    subst h1
    constructor
    · dsimp only
    · dsimp only
      simpa using h2

/-- Witness for C2 (amended): a clean repository whose `preedit` and `gpt`
branches are identical gets its archive operation rejected with nothing
written. -/
theorem zip_degenerate_blocks_witness :
    (create_zip "z.zip" { zipDegenerateEx with current := "preedit", workTree := 0 }).1 = false
      ∧ (create_zip "z.zip"
          { zipDegenerateEx with current := "preedit", workTree := 0 }).2.archives
        = ({ zipDegenerateEx with current := "preedit", workTree := 0 } : SwitcherState).archives :=
  zip_degenerate_blocks _ "z.zip" rfl rfl (by decide) (Or.inl (by decide))

@[simp] theorem doDeleteBranch_gitAvailable (b : String) (s : SwitcherState) :
    (doDeleteBranch b s).gitAvailable = s.gitAvailable := rfl

@[simp] theorem doDeleteBranch_repoExists (b : String) (s : SwitcherState) :
    (doDeleteBranch b s).repoExists = s.repoExists := rfl

@[simp] theorem doDeleteBranch_current (b : String) (s : SwitcherState) :
    (doDeleteBranch b s).current = s.current := rfl

@[simp] theorem doDeleteBranch_workTree (b : String) (s : SwitcherState) :
    (doDeleteBranch b s).workTree = s.workTree := rfl

@[simp] theorem doDeleteBranch_untracked (b : String) (s : SwitcherState) :
    (doDeleteBranch b s).untracked = s.untracked := rfl

@[simp] theorem doDeleteBranch_cursorignore (b : String) (s : SwitcherState) :
    (doDeleteBranch b s).cursorignore = s.cursorignore := rfl

@[simp] theorem doDeleteBranch_archives (b : String) (s : SwitcherState) :
    (doDeleteBranch b s).archives = s.archives := rfl

theorem doDeleteBranch_branches (b : String) (s : SwitcherState) :
    (doDeleteBranch b s).branches = s.branches.filter fun p => !(p.1 == b) := rfl

theorem lookupB_filter_self (l : List (String × List Commit)) (b : String) :
    lookupB (l.filter fun p => !(p.1 == b)) b = none := by
  induction l with
  | nil => rfl
  | cons p rest ih =>
    obtain ⟨n, h⟩ := p
    by_cases hn : n = b
    · have hb : (n == b) = true := by simp [hn]
      simp [List.filter, hb, ih]
    · have hb : (n == b) = false := by simp [hn]
      simp [List.filter, lookupB, hb, hn, ih]

theorem lookupB_filter_ne (l : List (String × List Commit)) (b b' : String)
    (hne : b' ≠ b) :
    lookupB (l.filter fun p => !(p.1 == b)) b' = lookupB l b' := by
  induction l with
  | nil => rfl
  | cons p rest ih =>
    obtain ⟨n, h⟩ := p
    by_cases hn : n = b
    · subst hn
      have hb : (n == n) = true := by simp
      have hb' : (n == b') = false := by simp [Ne.symm hne]
      simp [List.filter, lookupB, hb, hb', ih]
    · have hb : (n == b) = false := by simp [hn]
      by_cases hn' : n = b'
      · subst hn'
        have hb2 : (n == n) = true := by simp
        simp [List.filter, lookupB, hb, hb2]
      · have hb2 : (n == b') = false := by simp [hn']
        simp [List.filter, lookupB, hb, hb2, ih]

theorem delStep_lookup_self (s : SwitcherState) (st : String) :
    lookupBranch (delStep s st) st = none := by
  unfold delStep
  dsimp only
  split_ifs with h1
  · show lookupB _ st = none
    rw [doDeleteBranch_branches]
    simp only [tr_branches]
    exact lookupB_filter_self _ st
  · simp only [lookupBranch_tr]
    simp only [lookupBranch_tr] at h1
    cases hl : lookupBranch s st
    · rfl
    · exact absurd (by simp [hl]) h1

theorem delStep_lookup_ne (s : SwitcherState) (st b : String) (hne : b ≠ st) :
    lookupBranch (delStep s st) b = lookupBranch s b := by
  unfold delStep
  dsimp only
  split_ifs with h1
  · show lookupB _ b = _
    rw [doDeleteBranch_branches]
    simp only [tr_branches]
    exact lookupB_filter_ne _ st b hne
  · simp only [lookupBranch_tr]

@[simp] theorem delStep_gitAvailable (s : SwitcherState) (st : String) :
    (delStep s st).gitAvailable = s.gitAvailable := by
  unfold delStep; dsimp only; split_ifs <;> simp

@[simp] theorem delStep_repoExists (s : SwitcherState) (st : String) :
    (delStep s st).repoExists = s.repoExists := by
  unfold delStep; dsimp only; split_ifs <;> simp

@[simp] theorem delStep_current (s : SwitcherState) (st : String) :
    (delStep s st).current = s.current := by
  unfold delStep; dsimp only; split_ifs <;> simp

@[simp] theorem delStep_workTree (s : SwitcherState) (st : String) :
    (delStep s st).workTree = s.workTree := by
  unfold delStep; dsimp only; split_ifs <;> simp

@[simp] theorem delStep_untracked (s : SwitcherState) (st : String) :
    (delStep s st).untracked = s.untracked := by
  unfold delStep; dsimp only; split_ifs <;> simp

@[simp] theorem delStep_cursorignore (s : SwitcherState) (st : String) :
    (delStep s st).cursorignore = s.cursorignore := by
  unfold delStep; dsimp only; split_ifs <;> simp

@[simp] theorem delStep_archives (s : SwitcherState) (st : String) :
    (delStep s st).archives = s.archives := by
  unfold delStep; dsimp only; split_ifs <;> simp

theorem deleteStates_lookups (u : SwitcherState) :
    lookupBranch (deleteStates u) "preedit" = none
      ∧ lookupBranch (deleteStates u) "gpt" = none
      ∧ lookupBranch (deleteStates u) "sonnet" = none := by
  unfold deleteStates
  refine ⟨?_, ?_, ?_⟩
  · rw [delStep_lookup_ne _ _ _ (by decide), delStep_lookup_ne _ _ _ (by decide),
      delStep_lookup_self]
  · rw [delStep_lookup_ne _ _ _ (by decide), delStep_lookup_self]
  · rw [delStep_lookup_self]

theorem deleteStates_fields (u : SwitcherState) :
    (deleteStates u).workTree = u.workTree
      ∧ (deleteStates u).untracked = u.untracked
      ∧ (deleteStates u).archives = u.archives
      ∧ (deleteStates u).cursorignore = u.cursorignore
      ∧ (deleteStates u).current = u.current := by
  unfold deleteStates
  simp

theorem verify_branches (s : SwitcherState) :
    (verify_branches_different s).2.branches = s.branches := by
  unfold verify_branches_different
  dsimp only
  split_ifs <;> simp only [tr_branches]

theorem verify_current (s : SwitcherState) :
    (verify_branches_different s).2.current = s.current := by
  unfold verify_branches_different
  dsimp only
  split_ifs <;> simp only [tr_current]

theorem cleanupLand_lands (u : SwitcherState)
    (h : states.contains (get_current_branch u) = true
      ∨ (lookupBranch u "main" = none ∧ lookupBranch u "master" = none)
      ∨ u.current = "main" ∨ u.current = "master") :
    (cleanupLand u).current = "main" ∨ (cleanupLand u).current = "master" := by
  unfold cleanupLand
  dsimp only
  split_ifs with h1 h2 h3 h4
  · left; simp [doCheckout_current]
  · -- main exists, current not managed: the state is only traced
    simp only [lookupBranch_tr] at h1
    simp only [get_current_branch_tr] at h2
    rcases h with hA | hB | hC | hD
    · exact absurd hA h2
    · rw [hB.1] at h1; simp at h1
    · left; simpa using hC
    · right; simpa using hD
  · right; simp [doCheckout_current]
  · -- master exists (main does not), current not managed
    simp only [lookupBranch_tr] at h1 h3
    simp only [get_current_branch_tr] at h4
    rcases h with hA | hB | hC | hD
    · exact absurd hA h4
    · rw [hB.2] at h3; simp at h3
    · left; simpa using hC
    · right; simpa using hD
  · left; simp [doCheckoutNew_current]

theorem lookupB_commitOn_isSome (b b' msg : String) (t : Nat)
    (l : List (String × List Commit)) (h : (lookupB l b').isSome = true) :
    (lookupB (commitOn b msg t l) b').isSome = true := by
  by_cases hbb : b' = b
  · subst hbb
    rw [lookupB_commitOn_self]
    rfl
  · rw [lookupB_commitOn_ne _ _ _ _ _ hbb]
    exact h

theorem cleanupLand_stay (u : SwitcherState)
    (hcur : states.contains (get_current_branch u) = false)
    (hex : (lookupBranch u "main").isSome = true
      ∨ (lookupBranch u "master").isSome = true) :
    (cleanupLand u).current = u.current := by
  unfold cleanupLand
  dsimp only
  split_ifs with h1 h2 h3 h4
  · exfalso
    simp only [get_current_branch_tr] at h2
    rw [hcur] at h2
    simp at h2
  · simp
  · exfalso
    simp only [get_current_branch_tr] at h4
    rw [hcur] at h4
    simp at h4
  · simp
  · exfalso
    rcases hex with he | he
    · exact h1 (by simpa using he)
    · exact h3 (by simpa using he)

theorem cleanup_post (vs : SwitcherState) (zn : String) :
    lookupBranch (cleanup_switcher_branches { vs with archives := zn :: vs.archives }).2 "preedit" = none
      ∧ lookupBranch (cleanup_switcher_branches { vs with archives := zn :: vs.archives }).2 "gpt" = none
      ∧ lookupBranch (cleanup_switcher_branches { vs with archives := zn :: vs.archives }).2 "sonnet" = none
      ∧ ((states.contains vs.current = true
            ∨ (lookupBranch vs "main" = none ∧ lookupBranch vs "master" = none)
            ∨ vs.current = "main" ∨ vs.current = "master")
          → (cleanup_switcher_branches { vs with archives := zn :: vs.archives }).2.current = "main"
            ∨ (cleanup_switcher_branches { vs with archives := zn :: vs.archives }).2.current = "master")
      ∧ ((states.contains vs.current = false
            ∧ ((lookupBranch vs "main").isSome = true ∨ (lookupBranch vs "master").isSome = true))
          → (cleanup_switcher_branches { vs with archives := zn :: vs.archives }).2.current
            = vs.current) := by
  have hcl : (cleanup_switcher_branches { vs with archives := zn :: vs.archives }).2
      = deleteStates (cleanupLand { vs with archives := zn :: vs.archives }) := rfl
  rw [hcl]
  have hlu : ∀ b, lookupBranch { vs with archives := zn :: vs.archives } b = lookupBranch vs b :=
    fun b => rfl
  have hcu : ({ vs with archives := zn :: vs.archives } : SwitcherState).current = vs.current := rfl
  refine ⟨(deleteStates_lookups _).1, (deleteStates_lookups _).2.1,
    (deleteStates_lookups _).2.2, ?_, ?_⟩
  · intro hyp
    rw [(deleteStates_fields _).2.2.2.2]
    apply cleanupLand_lands
    rcases hyp with hA | hB | hC | hD
    · left
      have : vs.current = "preedit" ∨ vs.current = "gpt" ∨ vs.current = "sonnet" := by
        simpa [states] using hA
      have hne : (vs.current == "") = false := by
        rcases this with h | h | h <;> simp [h]
      simp only [get_current_branch, hcu, hne]
      simpa [states] using this
    · exact Or.inr (Or.inl ⟨(hlu "main").trans hB.1, (hlu "master").trans hB.2⟩)
    · exact Or.inr (Or.inr (Or.inl (hcu.trans hC)))
    · exact Or.inr (Or.inr (Or.inr (hcu.trans hD)))
  · rintro ⟨hu, hex⟩
    rw [(deleteStates_fields _).2.2.2.2]
    rw [show ({ vs with archives := zn :: vs.archives } : SwitcherState).current = vs.current
      from rfl] at hcu ⊢
    refine (cleanupLand_stay _ ?_ ?_).trans hcu
    · by_cases h0 : vs.current = ""
      · have : get_current_branch { vs with archives := zn :: vs.archives } = "main" := by
          simp [get_current_branch, hcu, h0]
        rw [this]
        decide
      · have : get_current_branch { vs with archives := zn :: vs.archives } = vs.current := by
          simp [get_current_branch, hcu, h0]
        rw [this]
        exact hu
    · rcases hex with he | he
      · exact Or.inl ((hlu "main") ▸ he)
      · exact Or.inr ((hlu "master") ▸ he)

/-- **C7, amended.**  Every successful archive operation triggers cleanup
automatically, so afterwards none of the three managed branches exists; when
the operation started on a managed branch, or no trunk branch (`main` or
`master`) existed, the repository is left checked out on a trunk branch
(an existing `main` or `master`, or a newly created `main`); when it started
on an unmanaged branch while a trunk existed, the current branch is unchanged.
The branch-deletion loop itself touches no files on disk: it preserves the
working tree, the untracked files, the archives, and the ignore file. -/
theorem zip_cleanup_result (s : SwitcherState) (zn : String)
    (h : (create_zip zn s).1 = true) :
    lookupBranch (create_zip zn s).2 "preedit" = none
      ∧ lookupBranch (create_zip zn s).2 "gpt" = none
      ∧ lookupBranch (create_zip zn s).2 "sonnet" = none
      ∧ ((states.contains s.current = true
            ∨ (lookupBranch s "main" = none ∧ lookupBranch s "master" = none))
          → (create_zip zn s).2.current = "main" ∨ (create_zip zn s).2.current = "master")
      ∧ ((states.contains s.current = false
            ∧ ((lookupBranch s "main").isSome = true ∨ (lookupBranch s "master").isSome = true))
          → (create_zip zn s).2.current = s.current)
      ∧ (∀ u : SwitcherState, (deleteStates u).workTree = u.workTree
          ∧ (deleteStates u).untracked = u.untracked
          ∧ (deleteStates u).archives = u.archives
          ∧ (deleteStates u).cursorignore = u.cursorignore) := by
  cases hg : s.gitAvailable with
  | false =>
    unfold create_zip at h
    rw [hg] at h
    simp at h
  | true =>
  cases hr : s.repoExists with
  | false =>
    unfold create_zip at h
    rw [hg, hr] at h
    simp at h
  | true =>
  unfold create_zip at h ⊢
  simp only [hg, hr, Bool.not_true, Bool.false_eq_true, if_false] at h ⊢
  have hpost : ∀ (M : SwitcherState), M.current = s.current →
      (∀ b, b = "main" ∨ b = "master" → lookupBranch s b = none →
        s.current ≠ "main" → s.current ≠ "master" → lookupB M.branches b = none) →
      (∀ b, (lookupBranch s b).isSome = true → (lookupB M.branches b).isSome = true) →
      ∀ (res : Bool × SwitcherState),
        res = (match verify_branches_different M with
          | (false, s) => (false, s)
          | (true, s) =>
            (true, (cleanup_switcher_branches { s with archives := zn :: s.archives }).2)) →
        res.1 = true →
        lookupBranch res.2 "preedit" = none
          ∧ lookupBranch res.2 "gpt" = none
          ∧ lookupBranch res.2 "sonnet" = none
          ∧ ((states.contains s.current = true
                ∨ (lookupBranch s "main" = none ∧ lookupBranch s "master" = none))
              → res.2.current = "main" ∨ res.2.current = "master")
          ∧ ((states.contains s.current = false
                ∧ ((lookupBranch s "main").isSome = true
                  ∨ (lookupBranch s "master").isSome = true))
              → res.2.current = s.current)
          ∧ (∀ u : SwitcherState, (deleteStates u).workTree = u.workTree
              ∧ (deleteStates u).untracked = u.untracked
              ∧ (deleteStates u).archives = u.archives
              ∧ (deleteStates u).cursorignore = u.cursorignore) := by
    intro M hMc hMl hMl2 res hres h1
    cases hv : verify_branches_different M with
    | mk vb vs =>
      rw [hv] at hres
      cases vb with
      | false => rw [hres] at h1; simp at h1
      | true =>
        rw [hres]
        dsimp only
        have hvc : vs.current = s.current := by
          have := verify_current M
          rw [hv] at this
          exact this.trans hMc
        have hvb2 : vs.branches = M.branches := by
          have := verify_branches M
          rw [hv] at this
          exact this
        have hc := cleanup_post vs zn
        refine ⟨hc.1, hc.2.1, hc.2.2.1, ?_, ?_, ?_⟩
        · intro hyp
          apply hc.2.2.2.1
          rcases hyp with hA | hB
          · left; rw [hvc]; exact hA
          · by_cases hm1 : s.current = "main"
            · exact Or.inr (Or.inr (Or.inl (hvc.trans hm1)))
            · by_cases hm2 : s.current = "master"
              · exact Or.inr (Or.inr (Or.inr (hvc.trans hm2)))
              · refine Or.inr (Or.inl ⟨?_, ?_⟩)
                · show lookupB vs.branches "main" = none
                  rw [hvb2]
                  exact hMl "main" (Or.inl rfl) hB.1 hm1 hm2
                · show lookupB vs.branches "master" = none
                  rw [hvb2]
                  exact hMl "master" (Or.inr rfl) hB.2 hm1 hm2
        · rintro ⟨hu, hex⟩
          refine (hc.2.2.2.2 ⟨by rw [hvc]; exact hu, ?_⟩).trans hvc
          rcases hex with he | he
          · refine Or.inl ?_
            show (lookupB vs.branches "main").isSome = true
            rw [hvb2]
            exact hMl2 "main" he
          · refine Or.inr ?_
            show (lookupB vs.branches "master").isSome = true
            rw [hvb2]
            exact hMl2 "master" he
        · intro u
          exact ⟨(deleteStates_fields u).1, (deleteStates_fields u).2.1,
            (deleteStates_fields u).2.2.1, (deleteStates_fields u).2.2.2.1⟩
  by_cases hd : statusPorcelain s = true
  · simp only [statusPorcelain_tr, hd, if_true] at h ⊢
    apply hpost (addCommit
      ("Auto-commit on " ++ get_current_branch (tr ["status", "--porcelain"] s)
        ++ " before zip creation")
      (tr ["branch", "--show-current"] (tr ["status", "--porcelain"] s))) rfl ?hl ?hlb _ rfl h
    case hl =>
      intro b hb hnone hnm1 hnm2
      show lookupB (commitOn s.current _ s.workTree s.branches) b = none
      rw [lookupB_commitOn_ne]
      · exact hnone
      · rcases hb with rfl | rfl
        · exact fun hh => hnm1 hh.symm
        · exact fun hh => hnm2 hh.symm
    case hlb =>
      intro b hb
      show (lookupB (commitOn s.current _ s.workTree s.branches) b).isSome = true
      exact lookupB_commitOn_isSome _ _ _ _ _ hb
  · have hd' : statusPorcelain s = false := by
      cases hds : statusPorcelain s
      · rfl
      · exact absurd hds hd
    simp only [statusPorcelain_tr, hd', Bool.false_eq_true, if_false] at h ⊢
    apply hpost (tr ["status", "--porcelain"] s) rfl ?hl2 ?hl2b _ rfl h
    case hl2 =>
      intro b hb hnone hnm1 hnm2
      exact hnone
    case hl2b =>
      intro b hb
      exact hb


/-- A repository positioned on an unmanaged branch `dev` while `main` exists:
the archive operation leaves it on `dev`, not on a trunk branch. -/
def zipCleanupEx : SwitcherState := {
  gitAvailable := true, repoExists := true,
  branches := [("preedit", [⟨"c", 0⟩]), ("gpt", [⟨"c", 1⟩]), ("sonnet", [⟨"c", 2⟩]),
    ("main", [⟨"c", 3⟩]), ("dev", [⟨"c", 4⟩])],
  current := "dev", workTree := 4, untracked := false,
  cursorignore := none, archives := [], trace := [] }

/-- **C7, counterexample.**  The claim as stated is false: from `zipCleanupEx`
(current branch `dev`, trunk `main` present) the archive operation succeeds,
yet the repository ends on `dev` — `cleanup_switcher_branches` only checks the
safe branch out when the current branch is one of the managed three. -/
theorem zip_cleanup_counterexample :
    (create_zip "z.zip" zipCleanupEx).1 = true
      ∧ (create_zip "z.zip" zipCleanupEx).2.current = "dev"
      ∧ (create_zip "z.zip" zipCleanupEx).2.current ≠ "main"
      ∧ (create_zip "z.zip" zipCleanupEx).2.current ≠ "master" := by
  decide

/-- Witness for C7 (amended): archiving a healthy repository from `preedit`
removes all three managed branches and lands on a trunk branch. -/
theorem zip_cleanup_result_witness :
    lookupBranch (create_zip "z.zip" exState).2 "preedit" = none
      ∧ lookupBranch (create_zip "z.zip" exState).2 "gpt" = none
      ∧ lookupBranch (create_zip "z.zip" exState).2 "sonnet" = none
      ∧ ((create_zip "z.zip" exState).2.current = "main"
          ∨ (create_zip "z.zip" exState).2.current = "master") := by
  have h := zip_cleanup_result exState "z.zip" (by decide)
  exact ⟨h.1, h.2.1, h.2.2.1, h.2.2.2.1 (Or.inl (by decide))⟩

theorem splitNl_ne_nil (l : List Char) : splitNl l ≠ [] := by
  induction l with
  | nil => simp [splitNl]
  | cons c rest ih =>
    by_cases hc : c = '\n'
    · simp [splitNl, hc]
    · simp only [splitNl, hc, if_false]
      cases hs : splitNl rest with
      | nil => exact absurd hs ih
      | cons l ls => simp

theorem splitNl_append_newline (a b : List Char) :
    splitNl (a ++ '\n' :: b) = splitNl a ++ splitNl b := by
  induction a with
  | nil => simp [splitNl]
  | cons c rest ih =>
    by_cases hc : c = '\n'
    · subst hc
      simp [splitNl, ih]
    · simp only [List.cons_append, splitNl, hc, if_false]
      simp only [List.append_eq]
      rw [ih]
      cases hs : splitNl rest with
      | nil => exact absurd hs (splitNl_ne_nil rest)
      | cons l ls => simp

theorem dropWhile_append_of_ne_nil {p : Char → Bool} (xs ys : List Char)
    (h : xs.dropWhile p ≠ []) :
    (xs ++ ys).dropWhile p = xs.dropWhile p ++ ys := by
  induction xs with
  | nil => exact absurd rfl h
  | cons c rest ih =>
    by_cases hp : p c
    · rw [List.cons_append, List.dropWhile_cons_of_pos hp,
        List.dropWhile_cons_of_pos hp]
      apply ih
      rw [List.dropWhile_cons_of_pos hp] at h
      exact h
    · have hp' : p c = false := by simpa using hp
      rw [List.cons_append, List.dropWhile_cons_of_neg (by simp [hp']),
        List.dropWhile_cons_of_neg (by simp [hp']), List.cons_append]

theorem rstripC_append (xs ys : List Char) (h : rstripC ys ≠ []) :
    rstripC (xs ++ ys) = xs ++ rstripC ys := by
  unfold rstripC at *
  rw [List.reverse_append]
  have h' : ys.reverse.dropWhile isPyWs ≠ [] := by
    intro hc
    apply h
    rw [hc, List.reverse_nil]
  rw [dropWhile_append_of_ne_nil _ _ h', List.reverse_append, List.reverse_reverse]

theorem lstripC_append (xs ys : List Char) (h : lstripC xs ≠ []) :
    lstripC (xs ++ ys) = lstripC xs ++ ys := by
  unfold lstripC at *
  exact dropWhile_append_of_ne_nil _ _ h

theorem dropWhile_head_false {p : Char → Bool} (l : List Char) (x : Char)
    (xs : List Char) (h : l.dropWhile p = x :: xs) : p x = false := by
  induction l with
  | nil => simp at h
  | cons c rest ih =>
    by_cases hp : p c
    · rw [List.dropWhile_cons_of_pos hp] at h
      exact ih h
    · have hp' : p c = false := by simpa using hp
      rw [List.dropWhile_cons_of_neg (by simp [hp'])] at h
      cases h
      exact hp'

theorem lstripC_rstripC_ne_nil (l : List Char) (h : rstripC l ≠ []) :
    lstripC (rstripC l) ≠ [] := by
  unfold rstripC at *
  cases hs : l.reverse.dropWhile isPyWs with
  | nil => exact absurd (by rw [hs, List.reverse_nil]) h
  | cons x xs =>
    have hx : isPyWs x = false := dropWhile_head_false _ _ _ hs
    unfold lstripC
    intro hc
    rw [List.dropWhile_eq_nil_iff] at hc
    have hmem : x ∈ (x :: xs : List Char).reverse := by simp
    have := hc x hmem
    rw [hx] at this
    exact absurd this (by simp)

theorem dropWhile_append_of_nil {p : Char → Bool} (xs ys : List Char)
    (h : xs.dropWhile p = []) :
    (xs ++ ys).dropWhile p = ys.dropWhile p := by
  induction xs with
  | nil => rfl
  | cons c rest ih =>
    by_cases hp : p c
    · rw [List.cons_append, List.dropWhile_cons_of_pos hp]
      apply ih
      rw [List.dropWhile_cons_of_pos hp] at h
      exact h
    · rw [List.dropWhile_cons_of_neg (by simpa using hp)] at h
      simp at h

/-- Number of lines of the (stripped) ignore-file content equal to the
switcher entry — the quantity the spec's "exactly one entry" talks about. -/
def entryCount (c : String) : Nat :=
  (splitNl (pyStrip c).data).count switcher_entry.data

/-- `entryCount` on an optional file content (`none` = file absent, count 0). -/
def entryCountO : Option String → Nat
  | none => 0
  | some c => entryCount c

theorem cursorUpdate_spec (o : Option String) :
    (cursorUpdate o).isSome = true
      ∧ entryCountO (cursorUpdate o) = max 1 (entryCountO o)
      ∧ (1 ≤ entryCountO o → cursorUpdate o = o) := by
  match o with
  | none =>
    refine ⟨rfl, ?_, ?_⟩
    · show entryCount (cursorComment ++ "\n" ++ switcher_entry ++ "\n") = max 1 0
      decide
    · intro h
      simp [entryCountO] at h
  | some c =>
    by_cases hmem : switcher_entry.data ∈ splitNl (pyStrip c).data
    · have hupd : cursorUpdate (some c) = some c := by
        simp [cursorUpdate, hmem]
      have hcnt : 1 ≤ entryCount c := by
        have := List.count_pos_iff.mpr hmem
        simpa [entryCount] using this
      refine ⟨by simp [hupd], ?_, fun _ => hupd⟩
      rw [hupd]
      show entryCount c = max 1 (entryCount c)
      omega
    · have hcnt0 : entryCount c = 0 := by
        simp [entryCount, List.count_eq_zero, hmem]
      have hupd : cursorUpdate (some c)
          = some (pyRstrip c ++ ("\n\n" ++ cursorComment ++ "\n" ++ switcher_entry ++ "\n")) := by
        simp [cursorUpdate, hmem]
      refine ⟨by simp [hupd], ?_, ?_⟩
      swap
      · intro h
        rw [show entryCountO (some c) = entryCount c from rfl, hcnt0] at h
        omega
      rw [hupd]
      show entryCount (pyRstrip c ++ ("\n\n" ++ cursorComment ++ "\n" ++ switcher_entry ++ "\n"))
        = max 1 (entryCount c)
      rw [hcnt0]
      -- character-level computation
      have hdata : (pyRstrip c ++ ("\n\n" ++ cursorComment ++ "\n" ++ switcher_entry ++ "\n")).data
          = rstripC c.data ++ ("\n\n" ++ cursorComment ++ "\n" ++ switcher_entry ++ "\n").data := by
        rw [String.data_append]
        rfl
      have htail : rstripC ("\n\n" ++ cursorComment ++ "\n" ++ switcher_entry ++ "\n").data
          = '\n' :: '\n' :: (cursorComment.data ++ '\n' :: switcher_entry.data) := by decide
      have htailne : rstripC ("\n\n" ++ cursorComment ++ "\n" ++ switcher_entry ++ "\n").data ≠ [] := by
        rw [htail]; simp
      unfold entryCount pyStrip
      rw [hdata]
      rw [show rstripC (rstripC c.data
          ++ ("\n\n" ++ cursorComment ++ "\n" ++ switcher_entry ++ "\n").data)
        = rstripC c.data ++ ('\n' :: '\n' :: (cursorComment.data ++ '\n' :: switcher_entry.data))
        from (rstripC_append _ _ htailne).trans (by rw [htail])]
      by_cases hX : lstripC (rstripC c.data) = []
      · rw [show lstripC (rstripC c.data
            ++ ('\n' :: '\n' :: (cursorComment.data ++ '\n' :: switcher_entry.data)))
          = lstripC ('\n' :: '\n' :: (cursorComment.data ++ '\n' :: switcher_entry.data)) from
            dropWhile_append_of_nil _ _ hX]
        decide
      · rw [lstripC_append _ _ hX]
        rw [show lstripC (rstripC c.data)
            ++ '\n' :: '\n' :: (cursorComment.data ++ '\n' :: switcher_entry.data)
          = lstripC (rstripC c.data)
            ++ '\n' :: ('\n' :: (cursorComment.data ++ '\n' :: switcher_entry.data)) from rfl]
        rw [splitNl_append_newline]
        rw [List.count_append]
        have h1 : (splitNl (lstripC (rstripC c.data))).count switcher_entry.data = 0 := by
          have : (pyStrip c).data = lstripC (rstripC c.data) := rfl
          rw [← this]
          exact List.count_eq_zero.mpr hmem
        rw [h1]
        have h2 : (splitNl ('\n' :: (cursorComment.data ++ '\n' :: switcher_entry.data))).count
            switcher_entry.data = 1 := by decide
        rw [h2]
        decide

theorem initRepo_gitAvailable (s : SwitcherState) :
    (initRepo s).gitAvailable = s.gitAvailable := by
  unfold initRepo; split_ifs <;> simp

theorem initRepo_branches (s : SwitcherState) :
    (initRepo s).branches = s.branches := by
  unfold initRepo; split_ifs <;> simp

theorem initRepo_current (s : SwitcherState) :
    (initRepo s).current = s.current := by
  unfold initRepo; split_ifs <;> simp

theorem initRepo_cursorignore (s : SwitcherState) :
    (initRepo s).cursorignore = s.cursorignore := by
  unfold initRepo; split_ifs <;> simp

theorem initAutoCommit_cursorignore (s : SwitcherState) :
    (initAutoCommit s).cursorignore = s.cursorignore := by
  unfold initAutoCommit; dsimp only; split_ifs <;> simp [addCommit]

theorem initPreedit_cursorignore (s : SwitcherState) :
    (initPreedit s).cursorignore = s.cursorignore := by
  unfold initPreedit; dsimp only; split_ifs <;> simp

theorem initVariant_cursorignore (v : String) (s : SwitcherState) :
    (initVariant v s).cursorignore = s.cursorignore := by
  unfold initVariant; dsimp only; split_ifs <;> simp

theorem initFinal_cursorignore (s : SwitcherState) :
    (initFinal s).cursorignore = s.cursorignore := by
  unfold initFinal; simp

theorem initCommit_cursorignore_of_empty (s : SwitcherState)
    (h0 : ((lookupBranch s s.current).getD []).isEmpty = true) :
    (initCommit s).cursorignore = cursorUpdate s.cursorignore := by
  unfold initCommit
  dsimp only
  rw [if_pos (by simpa using h0)]
  simp [addCommit, writeCursorignore_cursorignore]

theorem initCommit_cursorignore_of_nonempty (s : SwitcherState)
    (h0 : ((lookupBranch s s.current).getD []).isEmpty = false) :
    (initCommit s).cursorignore = s.cursorignore := by
  unfold initCommit
  dsimp only
  rw [if_neg (by simp [h0])]
  simp

/-- **C6, amended.**  Every initialization succeeds, and its effect on the
ignore file is: on the initial-commit path (the repository has no commits on
the current branch) the file exists afterwards and the number of its stripped
lines equal to the switcher entry is `max 1 (previous count)` — if the entry
was present it is not duplicated (the file is untouched), and if it was
absent exactly one entry line is appended; on a repository that already has
commits the ignore file is left untouched, even if the entry is absent. -/
theorem cursorignore_after_init (s : SwitcherState)
    (hg : s.gitAvailable = true) :
    (initStates s).1 = true
      ∧ (((lookupBranch s s.current).getD []).isEmpty = true →
          ((initStates s).2.cursorignore).isSome = true
            ∧ entryCountO (initStates s).2.cursorignore = max 1 (entryCountO s.cursorignore)
            ∧ (1 ≤ entryCountO s.cursorignore → (initStates s).2.cursorignore = s.cursorignore))
      ∧ (((lookupBranch s s.current).getD []).isEmpty = false →
          (initStates s).2.cursorignore = s.cursorignore) := by
  have hsuc : (initStates s).1 = true := by
    unfold initStates
    rw [if_neg (by simp [hg])]
  refine ⟨hsuc, ?_, ?_⟩
  · intro h0
    have hchain : (initStates s).2.cursorignore = cursorUpdate s.cursorignore := by
      unfold initStates
      rw [if_neg (by simp [hg])]
      dsimp only
      rw [initFinal_cursorignore, initVariant_cursorignore, initVariant_cursorignore,
        initPreedit_cursorignore, initAutoCommit_cursorignore]
      rw [initCommit_cursorignore_of_empty]
      · rw [initRepo_cursorignore]
      · show ((lookupB (initRepo s).branches (initRepo s).current).getD []).isEmpty = true
        rw [initRepo_branches, initRepo_current]
        exact h0
    obtain ⟨h1, h2, h3⟩ := cursorUpdate_spec s.cursorignore
    exact ⟨by rw [hchain]; exact h1, by rw [hchain]; exact h2,
      fun h => by rw [hchain]; exact h3 h⟩
  · intro h0
    unfold initStates
    rw [if_neg (by simp [hg])]
    dsimp only
    rw [initFinal_cursorignore, initVariant_cursorignore, initVariant_cursorignore,
      initPreedit_cursorignore, initAutoCommit_cursorignore]
    rw [initCommit_cursorignore_of_nonempty]
    · rw [initRepo_cursorignore]
    · show ((lookupB (initRepo s).branches (initRepo s).current).getD []).isEmpty = false
      rw [initRepo_branches, initRepo_current]
      exact h0

/-- **C6, counterexample.**  The claim as stated is false: initializing a
repository that already has commits (here `exState`) succeeds but never
touches the ignore file — the update only runs on the initial-commit path —
so the absent entry is not added. -/
theorem cursorignore_counterexample :
    (initStates exState).1 = true
      ∧ (initStates exState).2.cursorignore = none := by
  decide

/-- A fresh working directory: no repository yet, some files present. -/
def freshEx : SwitcherState := {
  gitAvailable := true, repoExists := false, branches := [], current := "master",
  workTree := 5, untracked := true, cursorignore := none, archives := [], trace := [] }

/-- Witness for C6 (amended): initializing a fresh directory (no repository,
so the initial-commit path is taken) creates the ignore file with exactly one
switcher entry. -/
theorem cursorignore_after_init_witness :
    (initStates freshEx).1 = true
      ∧ ((initStates freshEx).2.cursorignore).isSome = true
      ∧ entryCountO (initStates freshEx).2.cursorignore = max 1 (entryCountO freshEx.cursorignore)
      ∧ (1 ≤ entryCountO freshEx.cursorignore
          → (initStates freshEx).2.cursorignore = freshEx.cursorignore) := by
  have h := cursorignore_after_init freshEx rfl
  have h2 := h.2.1 (by decide)
  exact ⟨h.1, h2.1, h2.2.1, h2.2.2⟩

/-- The branch-name list of the repository (`git branch` output, in model
order). -/
def bnames (s : SwitcherState) : List String :=
  s.branches.map Prod.fst

@[simp] theorem bnames_tr (c : List String) (s : SwitcherState) :
    bnames (tr c s) = bnames s := rfl

@[simp] theorem bnames_doCheckout (b : String) (s : SwitcherState) :
    bnames (doCheckout b s) = bnames s := rfl

@[simp] theorem bnames_doClean (s : SwitcherState) :
    bnames (doClean s) = bnames s := rfl

theorem bnames_doCheckoutNew (b : String) (s : SwitcherState) :
    bnames (doCheckoutNew b s) = b :: bnames s := rfl

theorem lookupB_isSome_iff (l : List (String × List Commit)) (b : String) :
    (lookupB l b).isSome = true ↔ b ∈ l.map Prod.fst := by
  induction l with
  | nil => simp [lookupB]
  | cons p rest ih =>
    obtain ⟨n, h⟩ := p
    by_cases hn : n = b
    · subst hn; simp [lookupB]
    · have hb : (n == b) = false := by simp [hn]
      simp [lookupB, hb, hn, ih, Ne.symm hn]

theorem names_commitOn_of_mem (b m : String) (t : Nat)
    (l : List (String × List Commit)) (h : b ∈ l.map Prod.fst) :
    (commitOn b m t l).map Prod.fst = l.map Prod.fst := by
  induction l with
  | nil => simp at h
  | cons p rest ih =>
    obtain ⟨n, hh⟩ := p
    by_cases hn : n = b
    · subst hn; simp [commitOn]
    · have hb : (n == b) = false := by simp [hn]
      simp only [List.map_cons, List.mem_cons] at h
      rcases h with h | h
      · exact absurd h.symm hn
      · simp [commitOn, hb, ih h]

theorem bnames_doCommit_of_mem (m : String) (s : SwitcherState)
    (h : s.current ∈ bnames s) :
    bnames (doCommit m s) = bnames s := by
  unfold bnames doCommit
  exact names_commitOn_of_mem _ _ _ _ h

theorem bnames_addCommit_of_mem (m : String) (s : SwitcherState)
    (h : s.current ∈ bnames s) :
    bnames (addCommit m s) = bnames s := by
  unfold addCommit
  exact bnames_doCommit_of_mem _ _ h

@[simp] theorem addCommit_current (m : String) (s : SwitcherState) :
    (addCommit m s).current = s.current := rfl

@[simp] theorem addCommit_gitAvailable (m : String) (s : SwitcherState) :
    (addCommit m s).gitAvailable = s.gitAvailable := rfl

@[simp] theorem addCommit_repoExists (m : String) (s : SwitcherState) :
    (addCommit m s).repoExists = s.repoExists := rfl

theorem initRepo_repoExists (s : SwitcherState) : (initRepo s).repoExists = true := by
  unfold initRepo
  split_ifs with h
  · simp
  · simpa using h

theorem initRepo_of_repoExists (s : SwitcherState) (h : s.repoExists = true) :
    initRepo s = s := by
  unfold initRepo
  rw [if_neg]
  simp [h]

theorem initCommit_gitAvailable (s : SwitcherState) :
    (initCommit s).gitAvailable = s.gitAvailable := by
  unfold initCommit; dsimp only; split_ifs <;> simp [writeCursorignore]

theorem initCommit_repoExists (s : SwitcherState) :
    (initCommit s).repoExists = s.repoExists := by
  unfold initCommit; dsimp only; split_ifs <;> simp [writeCursorignore]

theorem initCommit_current (s : SwitcherState) :
    (initCommit s).current = s.current := by
  unfold initCommit; dsimp only; split_ifs <;> simp [writeCursorignore]

theorem initCommit_bnames_of_mem (s : SwitcherState) (h : s.current ∈ bnames s) :
    bnames (initCommit s) = bnames s := by
  unfold initCommit
  dsimp only
  split_ifs with h1
  · rw [show bnames (addCommit "Initial commit" (writeCursorignore (tr ["log", "--oneline", "-1"] s)))
      = bnames (writeCursorignore (tr ["log", "--oneline", "-1"] s)) from
        bnames_addCommit_of_mem _ _ (by simpa [bnames, writeCursorignore] using h)]
    simp [bnames, writeCursorignore]
  · simp

theorem initAutoCommit_gitAvailable (s : SwitcherState) :
    (initAutoCommit s).gitAvailable = s.gitAvailable := by
  unfold initAutoCommit; dsimp only; split_ifs <;> simp

theorem initAutoCommit_repoExists (s : SwitcherState) :
    (initAutoCommit s).repoExists = s.repoExists := by
  unfold initAutoCommit; dsimp only; split_ifs <;> simp

theorem initAutoCommit_current (s : SwitcherState) :
    (initAutoCommit s).current = s.current := by
  unfold initAutoCommit; dsimp only; split_ifs <;> simp

theorem initAutoCommit_bnames_of_mem (s : SwitcherState) (h : s.current ∈ bnames s) :
    bnames (initAutoCommit s) = bnames s := by
  unfold initAutoCommit
  dsimp only
  split_ifs with h1
  · exact bnames_addCommit_of_mem _ _ (by simpa [bnames] using h)
  · simp

theorem initPreedit_gitAvailable (s : SwitcherState) :
    (initPreedit s).gitAvailable = s.gitAvailable := by
  unfold initPreedit; dsimp only; split_ifs <;> simp

theorem initPreedit_repoExists (s : SwitcherState) :
    (initPreedit s).repoExists = s.repoExists := by
  unfold initPreedit; dsimp only; split_ifs <;> simp

theorem initPreedit_current (s : SwitcherState) :
    (initPreedit s).current = "preedit" := by
  unfold initPreedit; dsimp only; split_ifs <;> simp

theorem initPreedit_mem (s : SwitcherState) :
    "preedit" ∈ bnames (initPreedit s) := by
  unfold initPreedit
  dsimp only
  split_ifs with h1 h2
  · simp only [bnames_doCheckout, bnames_tr]
    exact (lookupB_isSome_iff _ _).mp (by simpa using h1)
  · rw [bnames_doCommit_of_mem]
    · simp [bnames_doCheckoutNew]
    · simp [bnames_doCheckoutNew]
  · simp [bnames_doCheckoutNew]

theorem initPreedit_mem_mono (s : SwitcherState) (b : String)
    (h : b ∈ bnames s) : b ∈ bnames (initPreedit s) := by
  unfold initPreedit
  dsimp only
  split_ifs with h1 h2
  · simpa using h
  · rw [bnames_doCommit_of_mem]
    · simp [bnames_doCheckoutNew]
      right
      exact h
    · simp [bnames_doCheckoutNew]
  · simp [bnames_doCheckoutNew]
    right
    exact h

theorem initPreedit_of_isSome (s : SwitcherState)
    (h : (lookupBranch s "preedit").isSome = true) :
    initPreedit s = doCheckout "preedit"
      (tr ["checkout", "preedit"] (tr ["branch", "--list", "preedit"] s)) := by
  unfold initPreedit
  dsimp only
  rw [if_pos (by simpa using h)]

theorem initVariant_gitAvailable (v : String) (s : SwitcherState) :
    (initVariant v s).gitAvailable = s.gitAvailable := by
  unfold initVariant; dsimp only; split_ifs <;> simp

theorem initVariant_repoExists (v : String) (s : SwitcherState) :
    (initVariant v s).repoExists = s.repoExists := by
  unfold initVariant; dsimp only; split_ifs <;> simp

theorem initVariant_of_isSome (v : String) (s : SwitcherState)
    (h : (lookupBranch s v).isSome = true) :
    initVariant v s = tr ["branch", "--list", v] s := by
  unfold initVariant
  dsimp only
  rw [if_pos (by simpa using h)]

theorem initVariant_mem_self (v : String) (s : SwitcherState) :
    v ∈ bnames (initVariant v s) := by
  unfold initVariant
  dsimp only
  split_ifs with h1
  · simpa [bnames] using (lookupB_isSome_iff _ _).mp (by simpa using h1)
  · simp [bnames_doCheckoutNew]

theorem initVariant_mem_mono (v b : String) (s : SwitcherState)
    (h : b ∈ bnames s) : b ∈ bnames (initVariant v s) := by
  unfold initVariant
  dsimp only
  split_ifs with h1
  · simpa using h
  · simp [bnames_doCheckoutNew]
    right
    exact h

@[simp] theorem initFinal_current (s : SwitcherState) :
    (initFinal s).current = "preedit" := rfl

@[simp] theorem initFinal_bnames (s : SwitcherState) :
    bnames (initFinal s) = bnames s := rfl

@[simp] theorem initFinal_gitAvailable (s : SwitcherState) :
    (initFinal s).gitAvailable = s.gitAvailable := rfl

@[simp] theorem initFinal_repoExists (s : SwitcherState) :
    (initFinal s).repoExists = s.repoExists := rfl

theorem initStates_post (s : SwitcherState) (hg : s.gitAvailable = true) :
    (initStates s).1 = true
      ∧ (initStates s).2.current = "preedit"
      ∧ "preedit" ∈ bnames (initStates s).2
      ∧ "gpt" ∈ bnames (initStates s).2
      ∧ "sonnet" ∈ bnames (initStates s).2
      ∧ (initStates s).2.gitAvailable = true
      ∧ (initStates s).2.repoExists = true := by
  unfold initStates
  rw [if_neg (by simp [hg])]
  refine ⟨rfl, rfl, ?_, ?_, ?_, ?_, ?_⟩
  · show "preedit" ∈ bnames (initFinal _)
    rw [initFinal_bnames]
    exact initVariant_mem_mono _ _ _ (initVariant_mem_mono _ _ _ (initPreedit_mem _))
  · show "gpt" ∈ bnames (initFinal _)
    rw [initFinal_bnames]
    exact initVariant_mem_mono _ _ _ (initVariant_mem_self _ _)
  · show "sonnet" ∈ bnames (initFinal _)
    rw [initFinal_bnames]
    exact initVariant_mem_self _ _
  · show (initFinal _).gitAvailable = true
    rw [initFinal_gitAvailable, initVariant_gitAvailable, initVariant_gitAvailable,
      initPreedit_gitAvailable, initAutoCommit_gitAvailable, initCommit_gitAvailable,
      initRepo_gitAvailable]
    exact hg
  · show (initFinal _).repoExists = true
    rw [initFinal_repoExists, initVariant_repoExists, initVariant_repoExists,
      initPreedit_repoExists, initAutoCommit_repoExists, initCommit_repoExists,
      initRepo_repoExists]

theorem initStates_stable (t : SwitcherState) (hg : t.gitAvailable = true)
    (hr : t.repoExists = true) (hc : t.current = "preedit")
    (hp : "preedit" ∈ bnames t) (hgp : "gpt" ∈ bnames t) (hsn : "sonnet" ∈ bnames t) :
    (initStates t).1 = true
      ∧ bnames (initStates t).2 = bnames t
      ∧ (initStates t).2.current = "preedit" := by
  unfold initStates
  rw [if_neg (by simp [hg]), initRepo_of_repoExists t hr]
  have hmem1 : t.current ∈ bnames t := by rw [hc]; exact hp
  have hb1 : bnames (initCommit t) = bnames t := initCommit_bnames_of_mem t hmem1
  have hc1 : (initCommit t).current = t.current := initCommit_current t
  have hmem2 : (initCommit t).current ∈ bnames (initCommit t) := by
    rw [hb1, hc1]; exact hmem1
  have hb2 : bnames (initAutoCommit (initCommit t)) = bnames t :=
    (initAutoCommit_bnames_of_mem _ hmem2).trans hb1
  have hps : (lookupBranch (initAutoCommit (initCommit t)) "preedit").isSome = true := by
    apply (lookupB_isSome_iff _ _).mpr
    show "preedit" ∈ bnames (initAutoCommit (initCommit t))
    rw [hb2]; exact hp
  rw [initPreedit_of_isSome _ hps]
  have hbu : bnames (doCheckout "preedit" (tr ["checkout", "preedit"]
      (tr ["branch", "--list", "preedit"] (initAutoCommit (initCommit t))))) = bnames t := by
    simpa using hb2
  have hgu : (lookupBranch (doCheckout "preedit" (tr ["checkout", "preedit"]
      (tr ["branch", "--list", "preedit"] (initAutoCommit (initCommit t))))) "gpt").isSome
      = true := by
    apply (lookupB_isSome_iff _ _).mpr
    show "gpt" ∈ bnames _
    rw [hbu]; exact hgp
  rw [initVariant_of_isSome _ _ hgu]
  have hsu : (lookupBranch (tr ["branch", "--list", "gpt"]
      (doCheckout "preedit" (tr ["checkout", "preedit"]
        (tr ["branch", "--list", "preedit"] (initAutoCommit (initCommit t)))))) "sonnet").isSome
      = true := by
    apply (lookupB_isSome_iff _ _).mpr
    show "sonnet" ∈ bnames _
    rw [bnames_tr, hbu]; exact hsn
  rw [initVariant_of_isSome _ _ hsu]
  refine ⟨rfl, ?_, rfl⟩
  show bnames (initFinal _) = bnames t
  rw [initFinal_bnames, bnames_tr, bnames_tr, hbu]

/-- **C3.**  Whenever git is available (the model's success condition for
`initialize`), initializing succeeds and ends with the current branch
`preedit`; calling initialize again on the result also succeeds, yields the
same branch-name list (so the same managed-branch set — the second call
detects the existing branches and commits and creates nothing), and the same
current branch. -/
theorem init_idempotent (s : SwitcherState) (hg : s.gitAvailable = true) :
    (initStates s).1 = true
      ∧ (initStates s).2.current = "preedit"
      ∧ (initStates (initStates s).2).1 = true
      ∧ (initStates (initStates s).2).2.current = (initStates s).2.current
      ∧ bnames (initStates (initStates s).2).2 = bnames (initStates s).2 := by
  obtain ⟨h1, h2, h3, h4, h5, h6, h7⟩ := initStates_post s hg
  obtain ⟨g1, g2, g3⟩ := initStates_stable _ h6 h7 h2 h3 h4 h5
  exact ⟨h1, h2, g1, g3.trans h2.symm, g2⟩

/-- Witness for C3: initializing a fresh directory twice gives the same
branch names and current branch as initializing once. -/
theorem init_idempotent_witness :
    (initStates freshEx).1 = true
      ∧ (initStates freshEx).2.current = "preedit"
      ∧ (initStates (initStates freshEx).2).1 = true
      ∧ (initStates (initStates freshEx).2).2.current = (initStates freshEx).2.current
      ∧ bnames (initStates (initStates freshEx).2).2 = bnames (initStates freshEx).2 :=
  init_idempotent freshEx rfl
